import Mathlib

/-!
Shallow embedding of the finance-record backend's access-control and
consistency core: the RBAC service (rbac.service.ts), the user service's
cache-key construction and invalidation (user.service.ts), the RBAC
middleware (rbac.middleware.ts) and the analytics job dispatch
(queue.service.ts).  Stateful TypeORM repositories become explicit state
passing over a `Db` record; thrown errors become `Except SvcError`.
-/

namespace FinanceBackend

/-- A permission row: uniquely named `resource:action` (models/Permission). -/
structure Permission where
  name : String
  resource : String
  action : String
deriving DecidableEq, Repr

/-- A role row: generated id, unique name, and its permission set (models/Role). -/
structure Role where
  id : Nat
  name : String
  permissions : List Permission
deriving DecidableEq, Repr

/-- User lifecycle status (types: UserStatus). -/
inductive UserStatus where
  | active
  | pending
  | suspended
deriving DecidableEq, Repr

/-- A user row with its roles relation (models/User); `deleted` models the
soft-delete column. -/
structure User where
  id : String
  email : String
  companyId : String
  status : UserStatus
  deleted : Bool
  roles : List Role
deriving DecidableEq, Repr

/-- The persistent state the services act on: the TypeORM tables, the company
table (only ids are relevant), the set of keys currently present in the cache
backend, and a counter standing for generated primary keys. -/
structure Db where
  users : List User
  roles : List Role
  permissions : List Permission
  companies : List String
  cache : List String
  nextId : Nat
deriving DecidableEq, Repr

/-- Error taxonomy: duplicate-name creation, missing referenced entity,
validation failure, and configuration error (unknown hierarchy role). -/
inductive SvcError where
  | duplicate : String → SvcError
  | notFound : String → SvcError
  | validation : String → SvcError
  | configuration : String → SvcError
deriving DecidableEq, Repr

/-- Decidable equality on `Except`, so closed runs of the services can be
checked by `decide`. -/
instance {ε α : Type} [DecidableEq ε] [DecidableEq α] : DecidableEq (Except ε α) :=
  fun a b =>
    match a, b with
    | .error e, .error f =>
      if h : e = f then isTrue (h ▸ rfl)
      else isFalse (fun heq => h (Except.error.inj heq))
    | .ok x, .ok y =>
      if h : x = y then isTrue (h ▸ rfl)
      else isFalse (fun heq => h (Except.ok.inj heq))
    | .error _, .ok _ => isFalse (fun heq => Except.noConfusion heq)
    | .ok _, .error _ => isFalse (fun heq => Except.noConfusion heq)

/-- `userRepo.findOne({where: {id}})` (soft-deleted rows are excluded by
TypeORM's default find behavior). -/
def findUser (db : Db) (userId : String) : Option User :=
  db.users.find? (fun u => !u.deleted && u.id == userId)

/-- `roleRepo.findOne({where: {name}})`. -/
def findRoleByName (db : Db) (roleName : String) : Option Role :=
  db.roles.find? (fun r => r.name == roleName)

/-- RBACService.checkUserPermission: a double loop over the user's roles and
each role's permissions, returning true on an exact resource match with exact
or wildcard action, or on the full `*`/`*` wildcard. -/
def checkUserPermission (user : User) (resource action : String) : Bool :=
  user.roles.any (fun role =>
    role.permissions.any (fun permission =>
      (permission.resource == resource &&
        (permission.action == action || permission.action == "*")) ||
      (permission.resource == "*" && permission.action == "*")))

/-- RBACService.hasPermission: load the user with roles and permissions;
false when the user does not exist. -/
def hasPermission (db : Db) (userId resource action : String) : Bool :=
  match findUser db userId with
  | none => false
  | some user => checkUserPermission user resource action

/-- RBACService.hasAnyPermission: `actions.some(...)` over checkUserPermission. -/
def hasAnyPermission (db : Db) (userId resource : String)
    (actions : List String) : Bool :=
  match findUser db userId with
  | none => false
  | some user => actions.any (fun action => checkUserPermission user resource action)

/-- RBACService.hasAllPermissions: `actions.every(...)` over checkUserPermission. -/
def hasAllPermissions (db : Db) (userId resource : String)
    (actions : List String) : Bool :=
  match findUser db userId with
  | none => false
  | some user => actions.all (fun action => checkUserPermission user resource action)

/-- The declared role hierarchy (utils/constant ROLE_HIERARCHY); higher index
means higher privilege. -/
def ROLE_HIERARCHY : List String :=
  ["member", "manager", "admin", "super_admin"]

/-- JavaScript `Array.prototype.indexOf`: index of the first occurrence, or -1. -/
def indexOfStr (l : List String) (s : String) : Int :=
  match l.findIdx? (fun x => x == s) with
  | some i => (i : Int)
  | none => -1

/-- RBACService.hasMinimumRole: false for a missing user; throws on an
unknown `minimumRole`; otherwise true iff some held role has hierarchy
index at least the minimum (an unknown held role name has index -1). -/
def hasMinimumRole (db : Db) (userId minimumRole : String) :
    Except SvcError Bool :=
  match findUser db userId with
  | none => .ok false
  | some user =>
    let minimumLevel := indexOfStr ROLE_HIERARCHY minimumRole
    if minimumLevel = -1 then
      .error (.configuration ("Unknown role: " ++ minimumRole))
    else
      .ok (user.roles.any (fun role =>
        decide (minimumLevel ≤ indexOfStr ROLE_HIERARCHY role.name)))

/-- `userRepo.save(user)`: persist the updated user row (replacement by id). -/
def saveUser (db : Db) (user : User) : Db :=
  { db with users := db.users.map (fun u => if u.id == user.id then user else u) }

/-- RBACService.assignRole: add the role to the user's role set only when no
held role has the same id, then save; missing user or role throws. -/
def assignRole (db : Db) (userId roleName : String) : Except SvcError Db :=
  match findUser db userId with
  | none => .error (.notFound "User or role not found")
  | some user =>
    match findRoleByName db roleName with
    | none => .error (.notFound "User or role not found")
    | some role =>
      if user.roles.any (fun r => r.id == role.id) then
        .ok db
      else
        .ok (saveUser db { user with roles := user.roles ++ [role] })

/-- `permissionRepo.find({where: names.map(name => ({name}))})`: every stored
row whose name appears in the list, each row once, in table order. -/
def findPermissionsByNames (db : Db) (names : List String) : List Permission :=
  db.permissions.filter (fun p => names.contains p.name)

/-- RBACService.createRole: duplicate role name throws first; then the
referenced permissions are fetched and the call throws when the number of
fetched rows differs from the length of the name list; otherwise the role is
created and persisted. -/
def createRole (db : Db) (roleName : String) (permissionNames : List String) :
    Except SvcError (Db × Role) :=
  match findRoleByName db roleName with
  | some _ => .error (.duplicate ("Role " ++ roleName ++ " already exists"))
  | none =>
    let permissions := findPermissionsByNames db permissionNames
    if permissions.length ≠ permissionNames.length then
      .error (.notFound "Some permissions not found")
    else
      let role : Role :=
        { id := db.nextId, name := roleName, permissions := permissions }
      .ok ({ db with roles := db.roles ++ [role], nextId := db.nextId + 1 }, role)

/-- RBACService.createPermission: the name is `resource:action`; a stored
permission with that name throws a duplicate error; otherwise the permission
is created and persisted. -/
def createPermission (db : Db) (resource action : String) :
    Except SvcError (Db × Permission) :=
  match db.permissions.find? (fun p => p.name == resource ++ ":" ++ action) with
  | some _ =>
    .error (.duplicate
      ("Permission " ++ (resource ++ ":" ++ action) ++ " already exists"))
  | none =>
    let permission : Permission :=
      { name := resource ++ ":" ++ action, resource := resource, action := action }
    .ok ({ db with permissions := db.permissions ++ [permission] }, permission)

/-- Outcome of an authorization middleware (rbac.middleware). -/
inductive MwResult where
  | unauthenticated
  | forbidden
  | allowed
deriving DecidableEq, Repr

/-- authorizeAll middleware: 401 without an authenticated request user,
403 unless the user holds all the required permissions, otherwise pass. -/
def authorizeAll (db : Db) (reqUser : Option String) (resource : String)
    (actions : List String) : MwResult :=
  match reqUser with
  | none => .unauthenticated
  | some userId =>
    if hasAllPermissions db userId resource actions then .allowed
    else .forbidden

/-- Query parameters of a user-list request (types: UserQueryParams together
with the pagination fields of QueryOptions). -/
structure UserQueryParams where
  page : Option Nat
  limit : Option Nat
  search : Option String
  status : Option UserStatus
  role : Option String
  includeInactive : Bool
  sortBy : Option String
  sortOrder : Option String
deriving DecidableEq, Repr

/-- The record getUsers passes to generateCacheKey; the full query parameters
ride along under the `filters` field. -/
structure CacheKeyParams where
  id : Option String
  companyId : Option String
  page : Option Nat
  limit : Option Nat
  filters : Option UserQueryParams
deriving DecidableEq, Repr

/-- JavaScript truthiness of an optional string (absent or empty is falsy). -/
def truthyStr : Option String → Bool
  | none => false
  | some s => s != ""

/-- JavaScript truthiness of an optional number (absent or zero is falsy). -/
def truthyNat : Option Nat → Bool
  | none => false
  | some n => n != 0

/-- UserService.generateCacheKey: joins the type with the truthy id, company,
page and limit parts; the `filters` field of the record is never read. -/
def generateCacheKey (type : String) (params : CacheKeyParams) : String :=
  let parts0 := [type]
  let parts1 :=
    if truthyStr params.id then parts0 ++ [params.id.getD ""] else parts0
  let parts2 :=
    if truthyStr params.companyId then
      parts1 ++ ["company:" ++ params.companyId.getD ""]
    else parts1
  let parts3 :=
    if truthyNat params.page then
      parts2 ++ ["page:" ++ toString (params.page.getD 0)]
    else parts2
  let parts4 :=
    if truthyNat params.limit then
      parts3 ++ ["limit:" ++ toString (params.limit.getD 0)]
    else parts3
  "user:" ++ String.intercalate ":" parts4

/-- The cache key UserService.getUsers derives for a list request. -/
def getUsersCacheKey (params : UserQueryParams) (companyId : String) : String :=
  generateCacheKey "list"
    { id := none, companyId := some companyId, page := params.page,
      limit := params.limit, filters := some params }

/-- Boolean prefix test on character lists (used by the glob matcher). -/
def listIsPrefixOf : List Char → List Char → Bool
  | [], _ => true
  | _ :: _, [] => false
  | a :: as, b :: bs => a == b && listIsPrefixOf as bs

/-- Modelled from the spec: CacheService (services/cache.service) is not under
src/; per the spec, `deletePattern` "removes every stored key matching a
prefix/glob pattern".  The only patterns the user service passes are a literal
key or a prefix followed by a trailing star, which matches any suffix. -/
def patternMatches (pattern key : String) : Bool :=
  if pattern.data.getLast? == some '*' then
    listIsPrefixOf pattern.data.dropLast key.data
  else pattern == key

/-- Modelled from the spec: removal of every cached key matching the pattern. -/
def deletePattern (cache : List String) (pattern : String) : List String :=
  cache.filter (fun key => !patternMatches pattern key)

/-- UserService.invalidateUserCaches: deletes the tenant's list-page pattern
and, when a user id is given, that user's detail key. -/
def invalidateUserCaches (cache : List String) (companyId : String)
    (userId : Option String) : List String :=
  let cache1 := deletePattern cache ("user:list:company:" ++ companyId ++ "*")
  match userId with
  | none => cache1
  | some uid => deletePattern cache1 ("user:detail:" ++ uid)

/-- utils/constant APP_PERMISSIONS: the built-in permission table. -/
def APP_PERMISSIONS : List Permission :=
  [ { name := "transaction:read", resource := "transaction", action := "read" },
    { name := "transaction:write", resource := "transaction", action := "write" },
    { name := "transaction:delete", resource := "transaction", action := "delete" },
    { name := "company:read", resource := "company", action := "read" },
    { name := "company:write", resource := "company", action := "write" },
    { name := "user:read", resource := "user", action := "read" },
    { name := "user:write", resource := "user", action := "write" },
    { name := "user:delete", resource := "user", action := "delete" },
    { name := "notice:read", resource := "notice", action := "read" },
    { name := "notice:write", resource := "notice", action := "write" },
    { name := "analytics:read", resource := "analytics", action := "read" },
    { name := "*:*", resource := "*", action := "*" } ]

/-- A built-in role entry of utils/constant APP_ROLES: a role name together
with the names of its permissions. -/
structure RoleSeed where
  name : String
  permissions : List String
deriving DecidableEq, Repr

/-- utils/constant APP_ROLES: the built-in role table. -/
def APP_ROLES : List RoleSeed :=
  [ { name := "super_admin", permissions := ["*:*"] },
    { name := "admin",
      permissions := ["transaction:read", "transaction:write",
        "transaction:delete", "company:read", "company:write", "user:read",
        "user:write", "user:delete", "notice:read", "notice:write",
        "analytics:read"] },
    { name := "manager",
      permissions := ["transaction:read", "transaction:write", "company:read",
        "user:read", "notice:read", "notice:write", "analytics:read"] },
    { name := "member",
      permissions := ["transaction:read", "company:read", "user:read",
        "notice:read"] } ]

/-- One step of role seeding: insert the built-in role when absent by name,
resolving its permission names against the permission table. -/
def seedRoleStep (perms : List Permission) (acc : List Role × Nat)
    (rd : RoleSeed) : List Role × Nat :=
  if acc.1.any (fun r => r.name == rd.name) then acc
  else
    (acc.1 ++
      [{ id := acc.2, name := rd.name,
         permissions := perms.filter (fun p => rd.permissions.contains p.name) }],
     acc.2 + 1)

/-- RBACService.seedRolesAndPermissions: idempotent bootstrap — create each
built-in permission and role only when absent by name. -/
def seedRolesAndPermissions (db : Db) : Db :=
  let perms := APP_PERMISSIONS.foldl
    (fun t p => if t.any (fun q => q.name == p.name) then t else t ++ [p])
    db.permissions
  let rolesAndNext := APP_ROLES.foldl (seedRoleStep perms) (db.roles, db.nextId)
  { db with permissions := perms, roles := rolesAndNext.1,
            nextId := rolesAndNext.2 }

/-- The data createUser consumes (types: CreateCompanyUserData restricted to
the fields the modelled control flow reads). -/
structure CreateUserData where
  email : String
  roles : List String
deriving DecidableEq, Repr

/-- `roleRepo.find` over the requested role names, defaulting to the member
role when the request names none (`data.roles?.length ? ... : {name: MEMBER}`). -/
def rolesQuery (rolesTable : List Role) (requested : List String) : List Role :=
  if requested.isEmpty then rolesTable.filter (fun r => r.name == "member")
  else rolesTable.filter (fun r => requested.contains r.name)

/-- createUser step 2: when the first role query found nothing, the service
reseeds the built-in roles and permissions; otherwise the state is left
alone. -/
def seedIfNoRoles (db : Db) (requested : List String) : Db :=
  if (rolesQuery db.roles requested).isEmpty then seedRolesAndPermissions db
  else db

/-- createUser steps 1-3: the roles of step 1; when empty, the re-query
against the reseeded table; when that is still empty, the member rows of the
reseeded table. -/
def selectRoles (db : Db) (requested : List String) : List Role :=
  if (rolesQuery db.roles requested).isEmpty then
    if (rolesQuery (seedIfNoRoles db requested).roles requested).isEmpty then
      (seedIfNoRoles db requested).roles.filter (fun r => r.name == "member")
    else rolesQuery (seedIfNoRoles db requested).roles requested
  else rolesQuery db.roles requested

/-- UserService.createUser: reject an existing email or a missing company;
fetch the requested roles (step 1), reseed and refetch when none were found
(step 2), and fall back to the member role when still none were found
(step 3); then persist the user and invalidate the tenant's list caches.
Email side effects are out of the modelled state. -/
def createUser (db : Db) (data : CreateUserData) (companyId _invitedBy : String)
    (invited : Bool) : Except SvcError (Db × User) :=
  if db.users.any (fun u => !u.deleted && u.email == data.email) then
    .error (.validation "User already exists with this email")
  else if !(db.companies.contains companyId) then
    .error (.validation "Company not found")
  else
    let db1 := seedIfNoRoles db data.roles
    let user : User :=
      { id := "generated-" ++ toString db1.nextId, email := data.email,
        companyId := companyId,
        status := if invited then .pending else .active,
        deleted := false, roles := selectRoles db data.roles }
    let db2 := { db1 with users := db1.users ++ [user], nextId := db1.nextId + 1 }
    .ok ({ db2 with cache := invalidateUserCaches db2.cache companyId none }, user)

/-- UserService.deleteUser: find the user by id and company, soft-remove it,
and return a message; no cache invalidation happens on this path. -/
def deleteUser (db : Db) (id companyId : String) :
    Except SvcError (Db × String) :=
  match db.users.find?
      (fun u => !u.deleted && u.id == id && u.companyId == companyId) with
  | none => .error (.notFound "User not found")
  | some user =>
    let newUsers := db.users.map
      (fun v => if v.id == user.id then { v with deleted := true } else v)
    .ok ({ db with users := newUsers }, "User deleted successfully")

/-- An analytics job as enqueued on the BullMQ analytics queue. -/
structure QJob where
  jobName : String
  companyId : String
  jobType : String
  userId : String
  enqueuedAt : Nat
  delay : Nat
deriving DecidableEq, Repr

/-- QueueService.calculateAnalytics: adds a calculate-analytics job with a
fixed 2000 ms delay and no job id, so every call appends a fresh job. -/
def calculateAnalytics (queue : List QJob) (now : Nat)
    (companyId jobType userId : String) : List QJob :=
  queue ++ [{ jobName := "calculate-analytics", companyId := companyId,
              jobType := jobType, userId := userId,
              enqueuedAt := now, delay := 2000 }]

/-- Modelled from the spec: the queue backend (config/queue.config) is not
under src/; per the spec's delay semantics, "a job with a delay is not
visible to workers until the delay elapses", so the jobs visible at `now`
are those whose enqueue time plus delay has passed. -/
def visibleJobs (queue : List QJob) (now : Nat) : List QJob :=
  queue.filter (fun j => decide (j.enqueuedAt + j.delay ≤ now))

/-! Concrete sample states used by witnesses and counterexamples. -/

/-- A role named "ghost", absent from the declared hierarchy. -/
def roleGhost : Role := { id := 1, name := "ghost", permissions := [] }

def userGhost : User :=
  { id := "u1", email := "ghost@example.com", companyId := "c1",
    status := .active, deleted := false, roles := [roleGhost] }

def dbGhost : Db :=
  { users := [userGhost], roles := [roleGhost], permissions := [],
    companies := ["c1"], cache := [], nextId := 2 }

/-- A user holding the admin role, for the monotonicity witness. -/
def roleAdminW : Role := { id := 3, name := "admin", permissions := [] }

def userAdminW : User :=
  { id := "u2", email := "admin@example.com", companyId := "c1",
    status := .active, deleted := false, roles := [roleAdminW] }

def dbAdminW : Db :=
  { users := [userAdminW], roles := [roleAdminW], permissions := [],
    companies := ["c1"], cache := [], nextId := 4 }

/-- A role-less user next to a stored manager role, for the assignment
witness. -/
def roleManagerW : Role := { id := 7, name := "manager", permissions := [] }

def userNoRoleW : User :=
  { id := "u3", email := "norole@example.com", companyId := "c1",
    status := .active, deleted := false, roles := [] }

def dbAssignW : Db :=
  { users := [userNoRoleW], roles := [roleManagerW], permissions := [],
    companies := ["c1"], cache := [], nextId := 8 }

/-- The state after assigning the manager role to u3 once. -/
def dbAssignW' : Db :=
  { users := [{ userNoRoleW with roles := [roleManagerW] }],
    roles := [roleManagerW], permissions := [], companies := ["c1"],
    cache := [], nextId := 8 }

/-- The transaction:read permission and a member role holding it. -/
def permTxRead : Permission :=
  { name := "transaction:read", resource := "transaction", action := "read" }

def roleMemberW : Role := { id := 5, name := "member", permissions := [permTxRead] }

def userMemberW : User :=
  { id := "u4", email := "member@example.com", companyId := "c1",
    status := .active, deleted := false, roles := [roleMemberW] }

def dbMemberW : Db :=
  { users := [userMemberW], roles := [roleMemberW], permissions := [permTxRead],
    companies := ["c1"], cache := [], nextId := 6 }

/-- A permission store holding just transaction:read, for the createRole
counterexample. -/
def dbPermOnly : Db :=
  { users := [], roles := [], permissions := [permTxRead], companies := [],
    cache := [], nextId := 1 }

/-- A state with a cached list page and a cached detail entry for tenant c1
and user u4. -/
def dbCacheW : Db :=
  { users := [userMemberW], roles := [], permissions := [],
    companies := ["c1"],
    cache := ["user:list:company:c1:page:1:limit:20", "user:detail:u4"],
    nextId := 9 }

/-- A list request with a search filter, and the same request without it. -/
def paramsSearchA : UserQueryParams :=
  { page := some 1, limit := some 20, search := some "alice", status := none,
    role := none, includeInactive := false, sortBy := none, sortOrder := none }

def paramsSearchB : UserQueryParams := { paramsSearchA with search := none }

/-- Four analytics triggers for tenant t1 enqueued at 0, 500, 1000 and 1500 ms
— all within the 2000 ms window of the first. -/
def analyticsScenarioQueue : List QJob :=
  calculateAnalytics
    (calculateAnalytics
      (calculateAnalytics
        (calculateAnalytics [] 0 "t1" "summary" "u1")
        500 "t1" "summary" "u1")
      1000 "t1" "summary" "u1")
    1500 "t1" "summary" "u1"

/-- A clean tenant with only the member role stored, for the createUser
witness. -/
def dbCreateW : Db :=
  { users := [], roles := [roleMemberW], permissions := [permTxRead],
    companies := ["c1"], cache := [], nextId := 10 }

/-- The user createUser persists from `dbCreateW` for a member request. -/
def userCreatedW : User :=
  { id := "generated-10", email := "new@example.com", companyId := "c1",
    status := .active, deleted := false, roles := [roleMemberW] }

/-- The state after that createUser call. -/
def dbCreateW' : Db :=
  { users := [userCreatedW], roles := [roleMemberW],
    permissions := [permTxRead], companies := ["c1"], cache := [],
    nextId := 11 }

end FinanceBackend

namespace FinanceBackend

/-- Claim C1: `hasPermission(userId, resource, action)` returns true iff the
stored principal exists and some role it holds has a permission whose
(resource, action) pair equals the queried pair exactly, or equals
(resource, `*`), or equals (`*`, `*`); a missing principal yields false. -/
theorem hasPermission_spec (db : Db) (userId resource action : String) :
    hasPermission db userId resource action = true ↔
      ∃ user, findUser db userId = some user ∧
        ∃ role ∈ user.roles, ∃ p ∈ role.permissions,
          ((p.resource = resource ∧ p.action = action) ∨
           (p.resource = resource ∧ p.action = "*") ∨
           (p.resource = "*" ∧ p.action = "*")) := by
  unfold hasPermission
  cases h : findUser db userId with
  | none => simp
  | some user =>
    simp only [Option.some.injEq, checkUserPermission, List.any_eq_true,
      Bool.or_eq_true, Bool.and_eq_true, beq_iff_eq]
    constructor
    · rintro ⟨role, hrole, p, hp, hcond⟩
      exact ⟨user, rfl, role, hrole, p, hp, by tauto⟩
    · rintro ⟨user', huser', role, hrole, p, hp, hcond⟩
      cases huser'
      exact ⟨role, hrole, p, hp, by tauto⟩

/-- Witness for C1: the stored member, whose role grants transaction:read,
passes the transaction read check. -/
theorem hasPermission_spec_witness :
    hasPermission dbMemberW "u4" "transaction" "read" = true :=
  (hasPermission_spec dbMemberW "u4" "transaction" "read").mpr
    ⟨userMemberW, by decide, roleMemberW, by decide, permTxRead, by decide,
      Or.inl ⟨by decide, by decide⟩⟩

/-- JavaScript indexOf returns -1 exactly on the absent elements. -/
theorem indexOfStr_eq_neg_one_iff (l : List String) (s : String) :
    indexOfStr l s = -1 ↔ s ∉ l := by
  cases h : l.findIdx? (fun x => x == s) with
  | none =>
    have hval : indexOfStr l s = -1 := by
      unfold indexOfStr
      rw [h]
    rw [List.findIdx?_eq_none_iff] at h
    rw [hval]
    refine iff_of_true rfl ?_
    intro hmem
    have := h s hmem
    simp at this
  | some i =>
    have hval : indexOfStr l s = (i : Int) := by
      unfold indexOfStr
      rw [h]
    rw [List.findIdx?_eq_some_iff_getElem] at h
    obtain ⟨hlt, hp, _⟩ := h
    have hget : l[i] = s := by simpa using hp
    rw [hval]
    refine iff_of_false (by omega) ?_
    exact fun hs => hs (hget ▸ l.getElem_mem hlt)

/-- Claim C2 (counterexample): the stored principal u1 exists and holds the
role "ghost", which is absent from the declared hierarchy, yet
`hasMinimumRole(u1, "member")` returns an ordinary false instead of failing
with a configuration error — an unknown held role name is silently treated
as not meeting the minimum. -/
theorem hasMinimumRole_unknown_held_role_counterexample :
    (∃ user, findUser dbGhost "u1" = some user ∧ roleGhost ∈ user.roles) ∧
    "ghost" ∉ ROLE_HIERARCHY ∧
    hasMinimumRole dbGhost "u1" "member" = .ok false :=
  ⟨⟨userGhost, by decide, by decide⟩, by decide, by decide⟩

/-- Claim C2 (amended): `hasMinimumRole(userId, minimumRole)` fails with a
ConfigurationError exactly when the stored principal exists and the
`minimumRole` argument is absent from the declared hierarchy; a held role
name absent from the hierarchy is silently given level -1 (never meeting any
minimum), and a missing principal returns false even for an unknown
`minimumRole`. -/
theorem hasMinimumRole_error_iff (db : Db) (userId minimumRole : String) :
    (∃ e, hasMinimumRole db userId minimumRole = Except.error e) ↔
      ((findUser db userId).isSome ∧ minimumRole ∉ ROLE_HIERARCHY) := by
  unfold hasMinimumRole
  cases h : findUser db userId with
  | none => simp
  | some user =>
    by_cases hm : indexOfStr ROLE_HIERARCHY minimumRole = -1
    · have hmem := (indexOfStr_eq_neg_one_iff _ _).mp hm
      simp [hm, hmem]
    · have hmem : minimumRole ∈ ROLE_HIERARCHY := by
        by_contra hc
        exact hm ((indexOfStr_eq_neg_one_iff _ _).mpr hc)
      simp [hm, hmem]

/-- Witness for the amended C2: with an existing principal and the unknown
name "zzz" as the minimum role, the call errors. -/
theorem hasMinimumRole_error_iff_witness :
    ∃ e, hasMinimumRole dbGhost "u1" "zzz" = Except.error e :=
  (hasMinimumRole_error_iff dbGhost "u1" "zzz").mpr ⟨by decide, by decide⟩

/-- Claim C7: hasMinimumRole is monotonic in the hierarchy — a stored
principal holding a role at hierarchy level `lu` passes the minimum-role
check for every hierarchy role at level `lm ≤ lu`. -/
theorem hasMinimumRole_monotonic (db : Db) (userId minRole : String)
    (user : User) (role : Role) (lu lm : Nat)
    (hu : findUser db userId = some user)
    (hr : role ∈ user.roles)
    (hlu : ROLE_HIERARCHY.findIdx? (fun x => x == role.name) = some lu)
    (hlm : ROLE_HIERARCHY.findIdx? (fun x => x == minRole) = some lm)
    (hle : lm ≤ lu) :
    hasMinimumRole db userId minRole = .ok true := by
  have hmi : indexOfStr ROLE_HIERARCHY minRole = (lm : Int) := by
    unfold indexOfStr
    rw [hlm]
  have hui : indexOfStr ROLE_HIERARCHY role.name = (lu : Int) := by
    unfold indexOfStr
    rw [hlu]
  unfold hasMinimumRole
  rw [hu]
  simp only [hmi]
  rw [if_neg (by omega)]
  refine congrArg Except.ok ?_
  rw [List.any_eq_true]
  refine ⟨role, hr, ?_⟩
  rw [hui]
  simpa using (by exact_mod_cast hle : (lm : Int) ≤ (lu : Int))

/-- Witness for C7: the admin-holding user u2 passes the member minimum. -/
theorem hasMinimumRole_monotonic_witness :
    hasMinimumRole dbAdminW "u2" "member" = .ok true :=
  hasMinimumRole_monotonic dbAdminW "u2" "member" userAdminW roleAdminW 2 0
    (by decide) (by decide) (by decide) (by decide) (by decide)

/-- Replacing the found user by id keeps it the first match of the user
lookup, provided the replacement keeps the id and the deletion flag. -/
theorem find?_map_replace (userId : String) (user user' : User)
    (hid : user'.id = user.id) (hdel : user'.deleted = user.deleted) :
    ∀ l : List User,
      l.find? (fun x => !x.deleted && x.id == userId) = some user →
      (l.map (fun x => if x.id == user'.id then user' else x)).find?
        (fun x => !x.deleted && x.id == userId) = some user' := by
  intro l
  induction l with
  | nil =>
    intro hu
    simp at hu
  | cons a l ih =>
    intro hu
    have huser := List.find?_some hu
    have huDel : user.deleted = false := by
      simp only [Bool.and_eq_true, Bool.not_eq_true'] at huser
      exact huser.1
    have huId : user.id = userId := by
      simp only [Bool.and_eq_true, beq_iff_eq] at huser
      exact huser.2
    have hpredNew : (!user'.deleted && user'.id == userId) = true := by
      simp [hdel, huDel, hid, huId]
    by_cases hpa : (!a.deleted && a.id == userId) = true
    · have hstep : List.find? (fun x => !x.deleted && x.id == userId) (a :: l)
          = some a :=
        List.find?_cons_of_pos l hpa
      rw [hstep] at hu
      have ha : a = user := Option.some.inj hu
      simp only [List.map_cons]
      have hcond : (a.id == user'.id) = true := by
        rw [ha]
        simp [hid]
      rw [if_pos hcond]
      exact List.find?_cons_of_pos _ hpredNew
    · have hstep : List.find? (fun x => !x.deleted && x.id == userId) (a :: l)
          = List.find? (fun x => !x.deleted && x.id == userId) l :=
        List.find?_cons_of_neg l hpa
      rw [hstep] at hu
      simp only [List.map_cons]
      by_cases hha : (a.id == user'.id) = true
      · rw [if_pos hha]
        exact List.find?_cons_of_pos _ hpredNew
      · rw [if_neg hha]
        have hstep2 : List.find? (fun x => !x.deleted && x.id == userId)
            (a :: l.map (fun x => if x.id == user'.id then user' else x))
            = List.find? (fun x => !x.deleted && x.id == userId)
              (l.map (fun x => if x.id == user'.id then user' else x)) :=
          List.find?_cons_of_neg _ hpa
        rw [hstep2]
        exact ih hu

/-- Claim C6: assignRole is idempotent — after a successful assignment,
repeating the same assignment leaves the whole state unchanged, and
assigning a role the principal already holds is a no-op that stores no
duplicate. -/
theorem assignRole_idempotent (db db' : Db) (userId roleName : String) :
    (assignRole db userId roleName = .ok db' →
      assignRole db' userId roleName = .ok db') ∧
    (∀ user role, findUser db userId = some user →
      findRoleByName db roleName = some role →
      user.roles.any (fun r => r.id == role.id) = true →
      assignRole db userId roleName = .ok db) := by
  constructor
  · intro h
    unfold assignRole at h ⊢
    cases hu : findUser db userId with
    | none =>
      rw [hu] at h
      exact Except.noConfusion h
    | some user =>
      simp only [hu] at h
      cases hr : findRoleByName db roleName with
      | none =>
        rw [hr] at h
        exact Except.noConfusion h
      | some role =>
        simp only [hr] at h
        by_cases hhas : user.roles.any (fun r => r.id == role.id) = true
        · rw [if_pos hhas] at h
          obtain rfl : db = db' := Except.ok.inj h
          simp only [hu, hr]
          rw [if_pos hhas]
        · rw [if_neg hhas] at h
          have hdb' : saveUser db { user with roles := user.roles ++ [role] } = db' :=
            Except.ok.inj h
          subst hdb'
          have hu' : findUser
              (saveUser db { user with roles := user.roles ++ [role] }) userId
              = some { user with roles := user.roles ++ [role] } :=
            find?_map_replace userId user { user with roles := user.roles ++ [role] }
              rfl rfl db.users hu
          have hr' : findRoleByName
              (saveUser db { user with roles := user.roles ++ [role] }) roleName
              = some role := hr
          simp only [hu', hr']
          have hhas' :
              ({ user with roles := user.roles ++ [role] } : User).roles.any
                (fun r => r.id == role.id) = true := by
            simp
          rw [if_pos hhas']
  · intro user role hu hr hhas
    unfold assignRole
    simp only [hu, hr]
    rw [if_pos hhas]

/-- Witness for C6: re-assigning the manager role to u3 after a first
successful assignment leaves the state unchanged. -/
theorem assignRole_idempotent_witness :
    assignRole dbAssignW' "u3" "manager" = .ok dbAssignW' :=
  (assignRole_idempotent dbAssignW dbAssignW' "u3" "manager").1 (by decide)

/-- Claim C9: for an existing principal — even one holding no roles at all —
hasAllPermissions with an empty action list returns true while
hasAnyPermission with an empty action list returns false, so the
require-all middleware admits any authenticated existing user when
configured with an empty action list. -/
theorem empty_action_list_admits (db : Db) (userId resource : String)
    (user : User) (hu : findUser db userId = some user) :
    hasAllPermissions db userId resource [] = true ∧
    hasAnyPermission db userId resource [] = false ∧
    authorizeAll db (some userId) resource [] = .allowed := by
  have hall : hasAllPermissions db userId resource [] = true := by
    unfold hasAllPermissions
    rw [hu]
    rfl
  have hany : hasAnyPermission db userId resource [] = false := by
    unfold hasAnyPermission
    rw [hu]
    rfl
  refine ⟨hall, hany, ?_⟩
  simp only [authorizeAll, hall, if_true]

/-- Witness for C9: u3 exists and holds no roles, yet the empty require-all
check admits it. -/
theorem empty_action_list_admits_witness :
    hasAllPermissions dbAssignW "u3" "transaction" [] = true ∧
    hasAnyPermission dbAssignW "u3" "transaction" [] = false ∧
    authorizeAll dbAssignW (some "u3") "transaction" [] = .allowed :=
  empty_action_list_admits dbAssignW "u3" "transaction" userNoRoleW (by decide)

/-- Claim C3 (code evaluated at the failing input): deleting user u4 of
tenant c1 succeeds but performs no cache invalidation — the tenant's cached
list page and the user's detail entry both survive the mutation, although
both keys are exactly the ones the service's own invalidateUserCaches would
have removed. -/
theorem deleteUser_leaves_stale_cache :
    ∃ db', deleteUser dbCacheW "u4" "c1" = .ok (db', "User deleted successfully") ∧
      db'.cache = dbCacheW.cache ∧
      "user:list:company:c1:page:1:limit:20" ∈ db'.cache ∧
      "user:detail:u4" ∈ db'.cache ∧
      invalidateUserCaches dbCacheW.cache "c1" (some "u4") = [] := by
  refine ⟨{ dbCacheW with users := [{ userMemberW with deleted := true }] },
    ?_, ?_, ?_, ?_, ?_⟩ <;> decide

/-- Claim C4 (code evaluated at the failing input): two list requests for
tenant c1 with identical pagination but different search filters are
distinct logical queries, yet generateCacheKey derives the same cache key
for both, because the filters passed by getUsers are never read. -/
theorem generateCacheKey_ignores_filters :
    paramsSearchA ≠ paramsSearchB ∧
    getUsersCacheKey paramsSearchA "c1" = getUsersCacheKey paramsSearchB "c1" ∧
    getUsersCacheKey paramsSearchA "c1" = "user:list:company:c1:page:1:limit:20" := by
  refine ⟨?_, ?_, ?_⟩ <;> decide

/-- The TypeORM fetch-by-names returns as many rows as names exactly when
every listed name is present, provided stored names are unique and the list
repeats no name. -/
theorem length_filter_names_eq_iff (l : List Permission) (pns : List String)
    (hl : (l.map Permission.name).Nodup) (hp : pns.Nodup) :
    (l.filter (fun p => pns.contains p.name)).length = pns.length ↔
      ∀ n ∈ pns, ∃ p ∈ l, p.name = n := by
  set F := (l.filter (fun p => pns.contains p.name)).map Permission.name with hF
  have hFnodup : F.Nodup :=
    List.Nodup.sublist ((List.filter_sublist l).map Permission.name) hl
  have hFlen : F.length = (l.filter (fun p => pns.contains p.name)).length :=
    List.length_map _ _
  have hmemF : ∀ n, n ∈ F ↔ (n ∈ pns ∧ ∃ p ∈ l, p.name = n) := by
    intro n
    rw [hF]
    simp only [List.mem_map, List.mem_filter]
    constructor
    · rintro ⟨p, ⟨hpl, hpc⟩, rfl⟩
      have : p.name ∈ pns := by
        have := List.contains_iff_exists_mem_beq.mp hpc
        obtain ⟨n', hn', hbeq⟩ := this
        rwa [show p.name = n' from by simpa using hbeq]
      exact ⟨this, p, hpl, rfl⟩
    · rintro ⟨hn, p, hpl, rfl⟩
      refine ⟨p, ⟨hpl, ?_⟩, rfl⟩
      exact List.contains_iff_exists_mem_beq.mpr ⟨p.name, hn, by simp⟩
  have hcardF : F.toFinset.card = F.length := List.toFinset_card_of_nodup hFnodup
  have hcardP : pns.toFinset.card = pns.length := List.toFinset_card_of_nodup hp
  have hsub : F.toFinset ⊆ pns.toFinset := by
    intro n hn
    rw [List.mem_toFinset] at hn ⊢
    exact ((hmemF n).mp hn).1
  constructor
  · intro hlen n hn
    have hle : pns.toFinset.card ≤ F.toFinset.card := by
      rw [hcardF, hcardP, hFlen, hlen]
    have heq : F.toFinset = pns.toFinset := Finset.eq_of_subset_of_card_le hsub hle
    have hnF : n ∈ F := by
      rw [← List.mem_toFinset, heq, List.mem_toFinset]
      exact hn
    exact ((hmemF n).mp hnF).2
  · intro hall
    have heq : F.toFinset = pns.toFinset := by
      ext n
      rw [List.mem_toFinset, List.mem_toFinset, hmemF n]
      constructor
      · rintro ⟨h1, _⟩
        exact h1
      · intro hn
        exact ⟨hn, hall n hn⟩
    rw [← hFlen, ← hcardF, heq, hcardP]

/-- Claim C5 (counterexample): every name referenced by the list
["transaction:read", "transaction:read"] exists in the permission store and
the role name is fresh, yet createRole fails with a NotFoundError, because
the store returns one row for the twice-listed name and the code compares
row count against list length. -/
theorem createRole_duplicate_names_counterexample :
    (∀ n ∈ ["transaction:read", "transaction:read"],
      ∃ p ∈ dbPermOnly.permissions, p.name = n) ∧
    (∀ r ∈ dbPermOnly.roles, r.name ≠ "reporter") ∧
    createRole dbPermOnly "reporter" ["transaction:read", "transaction:read"]
      = .error (.notFound "Some permissions not found") := by
  refine ⟨?_, ?_, ?_⟩ <;> decide

/-- Claim C5 (amended): assuming stored permission names are unique and the
requested name list repeats no name, createRole fails with a DuplicateError
exactly when the role name exists, fails with a NotFoundError exactly when
the role name is fresh and some referenced permission name is absent
(a repeated existing name would also trigger it, hence the no-repeat
hypothesis), and otherwise persists exactly the new role; createPermission
fails with a DuplicateError exactly when a permission named
resource:action exists, and otherwise persists exactly the new
permission.  All failures happen before any write, so errors mutate
nothing. -/
theorem createRole_createPermission_spec (db : Db) (roleName : String)
    (permissionNames : List String)
    (hperm : (db.permissions.map Permission.name).Nodup)
    (hnames : permissionNames.Nodup) :
    ((∃ m, createRole db roleName permissionNames
        = .error (.duplicate m)) ↔ ∃ r ∈ db.roles, r.name = roleName) ∧
    ((∃ m, createRole db roleName permissionNames
        = .error (.notFound m)) ↔
      ((∀ r ∈ db.roles, r.name ≠ roleName) ∧
        ∃ n ∈ permissionNames, ∀ p ∈ db.permissions, p.name ≠ n)) ∧
    ((∀ r ∈ db.roles, r.name ≠ roleName) →
      (∀ n ∈ permissionNames, ∃ p ∈ db.permissions, p.name = n) →
      ∃ db' role, createRole db roleName permissionNames = .ok (db', role) ∧
        role.name = roleName ∧ db'.roles = db.roles ++ [role] ∧
        db'.permissions = db.permissions ∧ db'.users = db.users) ∧
    (∀ resource action,
      ((∃ m, createPermission db resource action = .error (.duplicate m)) ↔
        ∃ p ∈ db.permissions, p.name = resource ++ ":" ++ action) ∧
      ((∀ p ∈ db.permissions, p.name ≠ resource ++ ":" ++ action) →
        ∃ db' perm, createPermission db resource action = .ok (db', perm) ∧
          db'.permissions = db.permissions ++ [perm] ∧
          perm.resource = resource ∧ perm.action = action ∧
          db'.roles = db.roles ∧ db'.users = db.users)) := by
  have hmaster := length_filter_names_eq_iff db.permissions permissionNames hperm hnames
  refine ⟨?_, ?_, ?_, ?_⟩
  · unfold createRole
    cases hfr : findRoleByName db roleName with
    | some r =>
      refine iff_of_true ⟨"Role " ++ roleName ++ " already exists", rfl⟩ ?_
      refine ⟨r, List.mem_of_find?_eq_some hfr, ?_⟩
      simpa using List.find?_some hfr
    | none =>
      rw [findRoleByName, List.find?_eq_none] at hfr
      refine iff_of_false ?_ ?_
      · by_cases hlen : (findPermissionsByNames db permissionNames).length
            = permissionNames.length
        · rw [if_neg (by rw [hlen]; exact fun hne => hne rfl)]
          rintro ⟨m, hm⟩
          exact Except.noConfusion hm
        · rw [if_pos (by exact fun he => hlen he)]
          rintro ⟨m, hm⟩
          exact SvcError.noConfusion (Except.error.inj hm)
      · rintro ⟨r, hr, hname⟩
        have := hfr r hr
        simp [hname] at this
  · unfold createRole
    cases hfr : findRoleByName db roleName with
    | some r =>
      refine iff_of_false ?_ ?_
      · rintro ⟨m, hm⟩
        exact SvcError.noConfusion (Except.error.inj hm)
      · rintro ⟨hall, _⟩
        have hrname : r.name = roleName := by simpa using List.find?_some hfr
        exact hall r (List.mem_of_find?_eq_some hfr) hrname
    | none =>
      have hfr' := hfr
      rw [findRoleByName, List.find?_eq_none] at hfr'
      have hfresh : ∀ r ∈ db.roles, r.name ≠ roleName := by
        intro r hr hname
        have := hfr' r hr
        simp [hname] at this
      by_cases hlen : (findPermissionsByNames db permissionNames).length
          = permissionNames.length
      · rw [if_neg (by rw [hlen]; exact fun hne => hne rfl)]
        refine iff_of_false ?_ ?_
        · rintro ⟨m, hm⟩
          exact Except.noConfusion hm
        · rintro ⟨_, n, hn, hmiss⟩
          have hall := hmaster.mp hlen
          obtain ⟨p, hpl, hpn⟩ := hall n hn
          exact hmiss p hpl hpn
      · rw [if_pos (by exact fun he => hlen he)]
        refine iff_of_true ⟨"Some permissions not found", rfl⟩ ?_
        refine ⟨hfresh, ?_⟩
        by_contra hc
        push_neg at hc
        refine hlen (hmaster.mpr ?_)
        intro n hn
        obtain ⟨p, hpl, hpn⟩ := hc n hn
        exact ⟨p, hpl, hpn⟩
  · intro hfresh hall
    have hnone : findRoleByName db roleName = none := by
      rw [findRoleByName, List.find?_eq_none]
      intro r hr
      simp only [beq_iff_eq]
      exact fun h => hfresh r hr (by simpa using h)
    unfold createRole
    rw [hnone]
    have hlen : (findPermissionsByNames db permissionNames).length
        = permissionNames.length := hmaster.mpr hall
    rw [if_neg (by rw [hlen]; exact fun hne => hne rfl)]
    exact ⟨_, _, rfl, rfl, rfl, rfl, rfl⟩
  · intro resource action
    constructor
    · unfold createPermission
      cases hfp : db.permissions.find?
          (fun p => p.name == resource ++ ":" ++ action) with
      | some p =>
        refine iff_of_true
          ⟨"Permission " ++ (resource ++ ":" ++ action) ++ " already exists", rfl⟩ ?_
        refine ⟨p, List.mem_of_find?_eq_some hfp, ?_⟩
        simpa using List.find?_some hfp
      | none =>
        rw [List.find?_eq_none] at hfp
        refine iff_of_false ?_ ?_
        · rintro ⟨m, hm⟩
          exact Except.noConfusion hm
        · rintro ⟨p, hp, hname⟩
          have := hfp p hp
          simp [hname] at this
    · intro hno
      have hnone : db.permissions.find?
          (fun p => p.name == resource ++ ":" ++ action) = none := by
        rw [List.find?_eq_none]
        intro p hp
        simp only [beq_iff_eq]
        exact fun h => hno p hp (by simpa using h)
      unfold createPermission
      rw [hnone]
      exact ⟨_, _, rfl, rfl, rfl, rfl, rfl, rfl⟩

/-- Witness for C5: on a store holding transaction:read and no roles,
creating the role "reporter" over that single permission succeeds and
persists exactly the new role. -/
theorem createRole_createPermission_spec_witness :
    ∃ db' role, createRole dbPermOnly "reporter" ["transaction:read"]
        = .ok (db', role) ∧
      role.name = "reporter" ∧ db'.roles = dbPermOnly.roles ++ [role] ∧
      db'.permissions = dbPermOnly.permissions ∧ db'.users = dbPermOnly.users :=
  (createRole_createPermission_spec dbPermOnly "reporter" ["transaction:read"]
      (by decide) (by decide)).2.2.1 (by decide) (by decide)

/-- Claim C8 (code evaluated at the failing input): four analytics triggers
for tenant t1 within one 2-second window are all enqueued as separate jobs —
none is visible before its delay elapses, but once the window has passed all
four (not exactly one) are eligible to run; in general every call appends a
fresh job, deduplicating nothing. -/
theorem calculateAnalytics_no_batching :
    (visibleJobs analyticsScenarioQueue 1999).length = 0 ∧
    (visibleJobs analyticsScenarioQueue 3500).length = 4 ∧
    (analyticsScenarioQueue.all (fun j => j.companyId == "t1")) = true ∧
    (∀ queue now companyId jobType userId,
      (calculateAnalytics queue now companyId jobType userId).length
        = queue.length + 1) := by
  refine ⟨by decide, by decide, by decide, ?_⟩
  intro queue now companyId jobType userId
  simp [calculateAnalytics]

/-- Every seeding step keeps the role whose presence it just ensured: after
processing a built-in role entry, the table holds a role of that name. -/
theorem seedRoleStep_ensures (perms : List Permission) (acc : List Role × Nat)
    (rd : RoleSeed) :
    ((seedRoleStep perms acc rd).1.any (fun r => r.name == rd.name)) = true := by
  unfold seedRoleStep
  by_cases hc : acc.1.any (fun r => r.name == rd.name) = true
  · rw [if_pos hc]
    exact hc
  · rw [if_neg hc]
    simp [List.any_append]

/-- After seeding, the role table holds a role named member (the member
entry is the last one processed, and later steps never remove roles). -/
theorem seeded_contains_member (db : Db) :
    (seedRolesAndPermissions db).roles.any (fun r => r.name == "member") = true := by
  simp only [seedRolesAndPermissions, APP_ROLES, List.foldl]
  exact seedRoleStep_ensures _ _ _

/-- The roles createUser selects are never empty: step 1 succeeds, or the
reseeded re-query succeeds, or the member fallback hits the member role the
reseeded table is guaranteed to hold. -/
theorem selectRoles_ne_nil (db : Db) (requested : List String) :
    selectRoles db requested ≠ [] := by
  unfold selectRoles
  by_cases h1 : (rolesQuery db.roles requested).isEmpty = true
  · rw [if_pos h1]
    by_cases h2 :
        (rolesQuery (seedIfNoRoles db requested).roles requested).isEmpty = true
    · rw [if_pos h2]
      have hmem : (seedIfNoRoles db requested).roles.any
          (fun r => r.name == "member") = true := by
        unfold seedIfNoRoles
        rw [if_pos h1]
        exact seeded_contains_member db
      rw [List.any_eq_true] at hmem
      obtain ⟨r, hr, hrn⟩ := hmem
      intro hnil
      have hmem2 : r ∈ (seedIfNoRoles db requested).roles.filter
          (fun r => r.name == "member") := List.mem_filter.mpr ⟨hr, hrn⟩
      rw [hnil] at hmem2
      exact absurd hmem2 (List.not_mem_nil r)
    · rw [if_neg h2]
      exact fun hnil => h2 (by rw [hnil]; rfl)
  · rw [if_neg h1]
    exact fun hnil => h1 (by rw [hnil]; rfl)

/-- Claim C10: every user createUser persists holds at least one role —
either the requested roles resolve, or the service reseeds the built-in
tables and falls back to the member role, which seeding guarantees to
exist. -/
theorem createUser_roles_nonempty (db : Db) (data : CreateUserData)
    (companyId invitedBy : String) (invited : Bool) (db' : Db) (u : User)
    (h : createUser db data companyId invitedBy invited = .ok (db', u)) :
    u.roles ≠ [] := by
  unfold createUser at h
  by_cases h1 : db.users.any (fun v => !v.deleted && v.email == data.email) = true
  · rw [if_pos h1] at h
    exact absurd h (fun hh => Except.noConfusion hh)
  · rw [if_neg h1] at h
    by_cases h2 : (!(db.companies.contains companyId)) = true
    · rw [if_pos h2] at h
      exact absurd h (fun hh => Except.noConfusion hh)
    · rw [if_neg h2] at h
      have hpair := Except.ok.inj h
      have hroles : u.roles = selectRoles db data.roles := by
        have := congrArg (fun x => x.2.roles) hpair
        simpa using this.symm
      rw [hroles]
      exact selectRoles_ne_nil db data.roles

/-- Witness for C10: creating a member user in tenant c1 yields a user whose
role set is the nonempty [member]. -/
theorem createUser_roles_nonempty_witness : userCreatedW.roles ≠ [] :=
  createUser_roles_nonempty dbCreateW
    { email := "new@example.com", roles := ["member"] } "c1" "admin" false
    dbCreateW' userCreatedW (by decide)

end FinanceBackend
